import Mathlib

/-!
Shallow embedding of the `diego` analytics package (Python), covering
`diego/analytics/bias_detector.py`, `diego/analytics/database.py` and
`diego/analytics/insights.py`.

Python strings are modelled as `List Char` (ASCII-level lowercasing),
Python floats as exact rationals `ℚ`, except where `statistics.stdev`
introduces a square root; there values live in `ℝ` with `Real.sqrt`.
Python `round(x, 3)` (round-half-to-even to 3 decimals) is modelled by
`pyRound3` / `pyRound3R`.
-/

/-- Model of Python `str.lower` on one character (ASCII range, as in
`Char.toLower`): uppercase letters are shifted by 32, all else unchanged. -/
def pyLowerChar (c : Char) : Char :=
  if 65 ≤ c.toNat ∧ c.toNat ≤ 90 then Char.ofNat (c.toNat + 32) else c

/-- Model of Python `str.lower` on a string. -/
def lowerStr (s : List Char) : List Char := s.map pyLowerChar

/-- Model of Python `str.strip()`: drop whitespace from both ends. -/
def pyStrip (s : List Char) : List Char :=
  ((s.dropWhile Char.isWhitespace).reverse.dropWhile Char.isWhitespace).reverse

/-- The fixed suffix list of `BiasDetector._clean_source_name`
(`[".com", ".org", ".net", ".co.uk", ".au"]`). -/
def suffixesList : List (List Char) :=
  [".com".toList, ".org".toList, ".net".toList, ".co.uk".toList, ".au".toList]

/-- The `for suffix in suffixes: if clean.endswith(suffix): clean = clean[:-len(suffix)]; break`
loop: remove the first matching suffix, if any. -/
def stripOneSuffix (s : List Char) : List Char :=
  match suffixesList.find? (fun suf => suf.isSuffixOf s) with
  | some suf => s.take (s.length - suf.length)
  | none => s

/-- The `variations` alias dictionary of `BiasDetector._clean_source_name`. -/
def variationsList : List (List Char × List Char) :=
  [ ("the-guardian".toList, "guardian".toList),
    ("theguardian".toList, "guardian".toList),
    ("the-washington-post".toList, "washingtonpost".toList),
    ("the-wall-street-journal".toList, "wsj".toList),
    ("wall-street-journal".toList, "wsj".toList),
    ("new-york-times".toList, "nytimes".toList),
    ("the-new-york-times".toList, "nytimes".toList),
    ("associated-press".toList, "ap".toList),
    ("huffington-post".toList, "huffpost".toList),
    ("usa-today".toList, "usatoday".toList) ]

/-- `variations.get(clean, clean)`. -/
def applyVariations (s : List Char) : List Char :=
  (variationsList.lookup s).getD s

/-- `BiasDetector._clean_source_name`: empty in, empty out; otherwise
lowercase, trim, strip one matching domain suffix, apply the alias table. -/
def cleanSourceName (s : List Char) : List Char :=
  if s.isEmpty then [] else applyVariations (stripOneSuffix (pyStrip (lowerStr s)))

example : cleanSourceName "The-Guardian.com".toList = "guardian".toList := by decide
example : cleanSourceName "a.com.com".toList = "a.com".toList := by decide
example : cleanSourceName "a.com".toList = "a".toList := by decide

/-! ## The source-analysis store and `get_source_bias` -/

/-- A row of the `source_analysis` table: source key, `political_bias`,
`credibility_score` (REAL columns modelled as `ℚ`). -/
abbrev SourceTable := List (List Char × ℚ × ℚ)

/-- `BiasDetector.KNOWN_SOURCES`, in the dictionary's insertion order. -/
def knownSources : SourceTable :=
  [ ("guardian".toList, -0.6, 0.8),
    ("theguardian.com".toList, -0.6, 0.8),
    ("cnn".toList, -0.4, 0.7),
    ("cnn.com".toList, -0.4, 0.7),
    ("msnbc".toList, -0.7, 0.6),
    ("washingtonpost".toList, -0.5, 0.8),
    ("nytimes".toList, -0.4, 0.9),
    ("huffpost".toList, -0.8, 0.6),
    ("vox".toList, -0.7, 0.7),
    ("foxnews".toList, 0.7, 0.6),
    ("fox".toList, 0.7, 0.6),
    ("breitbart".toList, 0.9, 0.4),
    ("dailywire".toList, 0.8, 0.5),
    ("nypost".toList, 0.5, 0.6),
    ("wsj".toList, 0.3, 0.9),
    ("wallstreetjournal".toList, 0.3, 0.9),
    ("reuters".toList, 0.0, 0.9),
    ("ap".toList, 0.0, 0.9),
    ("apnews".toList, 0.0, 0.9),
    ("associated-press".toList, 0.0, 0.9),
    ("bbc".toList, -0.1, 0.8),
    ("bbc.com".toList, -0.1, 0.8),
    ("npr".toList, -0.2, 0.8),
    ("pbs".toList, -0.1, 0.8),
    ("usa-today".toList, 0.1, 0.7),
    ("usatoday".toList, 0.1, 0.7),
    ("bloomberg".toList, 0.0, 0.9),
    ("newsapi".toList, 0.0, 0.8) ]

/-- `AnalyticsDatabase.update_source_analysis` (`INSERT OR REPLACE` keyed on
the UNIQUE `source` column): replace the row with that key, or add one. -/
def upsertSourceAnalysis (t : SourceTable) (s : List Char) (bias cred : ℚ) : SourceTable :=
  if t.any (fun row => row.1 == s) then
    t.map (fun row => if row.1 == s then (s, bias, cred) else row)
  else t ++ [(s, bias, cred)]

/-- `BiasDetector._initialize_known_sources` starting from an empty table. -/
def initializedTable : SourceTable :=
  knownSources.foldl (fun t kv => upsertSourceAnalysis t kv.1 kv.2.1 kv.2.2) []

example : initializedTable = knownSources := by rfl

/-- `BiasDetector._get_cached_source_data`: scan the table for the row whose
`source` equals the given key (the column is UNIQUE, so at most one row). -/
def lookupSource (t : SourceTable) (s : List Char) : Option (ℚ × ℚ) :=
  (t.find? (fun row => row.1 == s)).map (fun row => row.2)

/-- `BiasDetector.get_source_bias`: clean the name, try the cached table,
then the external API (`_fetch_from_external_api`, which always returns
`None` in the source), and finally fall back to neutral `(0.0, 0.5)`.
Returns the `(political_bias, credibility_score)` pair together with the
resulting table state (the API branch would cache, but it is never taken). -/
def getSourceBias (t : SourceTable) (source : List Char) : (ℚ × ℚ) × SourceTable :=
  match lookupSource t (cleanSourceName source) with
  | some bc => (bc, t)
  | none => ((0, 0.5), t)

example : (getSourceBias initializedTable "CNN".toList).1 = (-0.4, 0.7) := by rfl
example : (getSourceBias initializedTable "zzz".toList).1 = (0, 0.5) := by rfl

/-! ## Python `round(x, 3)` -/

/-- Round-half-to-even to the nearest integer (Python `round` on the value
already scaled by `10^3`), on `ℚ`. -/
def roundHalfEvenQ (q : ℚ) : ℤ :=
  if q - ⌊q⌋ < 1/2 then ⌊q⌋
  else if 1/2 < q - ⌊q⌋ then ⌊q⌋ + 1
  else if ⌊q⌋ % 2 = 0 then ⌊q⌋ else ⌊q⌋ + 1

/-- Python `round(q, 3)` on `ℚ`. -/
def pyRound3 (q : ℚ) : ℚ := (roundHalfEvenQ (q * 1000) : ℚ) / 1000

/-- Round-half-to-even to the nearest integer, on `ℝ`. -/
noncomputable def roundHalfEvenR (x : ℝ) : ℤ :=
  if x - ⌊x⌋ < 1/2 then ⌊x⌋
  else if 1/2 < x - ⌊x⌋ then ⌊x⌋ + 1
  else if ⌊x⌋ % 2 = 0 then ⌊x⌋ else ⌊x⌋ + 1

/-- Python `round(x, 3)` on `ℝ`. -/
noncomputable def pyRound3R (x : ℝ) : ℝ := (roundHalfEvenR (x * 1000) : ℝ) / 1000

example : pyRound3 (1/4) = 0.25 := by norm_num [pyRound3, roundHalfEvenQ]

/-! ## `analyze_source_diversity` -/

/-- The `political_balance` accumulator of `analyze_source_diversity`. -/
structure PoliticalBalance where
  left : ℕ
  center : ℕ
  right : ℕ
deriving DecidableEq

/-- One step of the categorisation loop: `bias < -0.3` is left,
`bias > 0.3` is right, otherwise center. -/
def classifyBias (pb : PoliticalBalance) (b : ℚ) : PoliticalBalance :=
  if b < -0.3 then { pb with left := pb.left + 1 }
  else if b > 0.3 then { pb with right := pb.right + 1 }
  else { pb with center := pb.center + 1 }

/-- The `political_bias` values collected by the loop of
`analyze_source_diversity` (`get_source_bias` never changes the table in the
source - its API branch is dead - so the loop is a plain map). -/
def biasScoresOf (t : SourceTable) (sources : List (List Char)) : List ℚ :=
  sources.map (fun s => ((getSourceBias t s).1).1)

/-- The `credibility_score` values collected by the same loop. -/
def credScoresOf (t : SourceTable) (sources : List (List Char)) : List ℚ :=
  sources.map (fun s => ((getSourceBias t s).1).2)

/-- The `political_balance` computed by the loop. -/
def balanceOf (t : SourceTable) (sources : List (List Char)) : PoliticalBalance :=
  (biasScoresOf t sources).foldl classifyBias ⟨0, 0, 0⟩

/-- `statistics.mean` (exact fraction arithmetic; only used on non-empty
lists, as in the source). -/
def meanQ (l : List ℚ) : ℚ := l.sum / l.length

/-- The sample variance underlying `statistics.stdev`:
`Σ (x - mean)² / (n - 1)` (only used with `n ≥ 2`, as in the source). -/
def sampleVariance (l : List ℚ) : ℚ :=
  (l.map (fun x => (x - meanQ l) ^ 2)).sum / ((l.length : ℚ) - 1)

/-- Python `min` over a non-empty list (defaults to 0 on `[]`, never used). -/
def listMinQ (l : List ℚ) : ℚ :=
  match l with
  | [] => 0
  | x :: xs => xs.foldl min x

/-- Python `max` over a non-empty list (defaults to 0 on `[]`, never used). -/
def listMaxQ (l : List ℚ) : ℚ :=
  match l with
  | [] => 0
  | x :: xs => xs.foldl max x

/-- `statistics.stdev(bias_scores) if len(bias_scores) > 1 else 0.0`. -/
noncomputable def stdevOf (t : SourceTable) (sources : List (List Char)) : ℝ :=
  if 1 < (biasScoresOf t sources).length then Real.sqrt (sampleVariance (biasScoresOf t sources))
  else 0

/-- Result record of `BiasDetector.analyze_source_diversity`. The keys
`average_bias` and `bias_distribution` are absent from the empty-input
return value in the source, hence the `Option` types. -/
structure DiversityAnalysis where
  diversity_score : ℝ
  political_balance : PoliticalBalance
  average_credibility : ℚ
  average_bias : Option ℚ
  source_count : ℕ
  bias_min : Option ℚ
  bias_max : Option ℚ
  bias_std_dev : Option ℝ

/-- `BiasDetector.analyze_source_diversity`. -/
noncomputable def analyzeSourceDiversity (t : SourceTable) (sources : List (List Char)) :
    DiversityAnalysis :=
  if sources.isEmpty then
    { diversity_score := 0
      political_balance := ⟨0, 0, 0⟩
      average_credibility := 0
      average_bias := none
      source_count := 0
      bias_min := none
      bias_max := none
      bias_std_dev := none }
  else
    { diversity_score := pyRound3R (min (stdevOf t sources / 1) 1)
      political_balance := balanceOf t sources
      average_credibility := pyRound3 (meanQ (credScoresOf t sources))
      average_bias := some (pyRound3 (meanQ (biasScoresOf t sources)))
      source_count := sources.length
      bias_min := some (pyRound3 (listMinQ (biasScoresOf t sources)))
      bias_max := some (pyRound3 (listMaxQ (biasScoresOf t sources)))
      bias_std_dev := some (pyRound3R (stdevOf t sources)) }

/-! ## `detect_echo_chamber` -/

/-- `BiasDetector._generate_balance_recommendations`. -/
def balanceRecommendations (pb : PoliticalBalance) (total : ℕ) : List String :=
  if total = 0 then ["Start reading news from diverse sources"]
  else
    let lr : ℚ := pb.left / total
    let rr : ℚ := pb.right / total
    let cr : ℚ := pb.center / total
    let base : List String :=
      if lr > 0.6 then
        ["Consider reading more centrist and conservative sources",
         "Try: Reuters, AP News, Wall Street Journal"]
      else if rr > 0.6 then
        ["Consider reading more centrist and liberal sources",
         "Try: Reuters, AP News, NPR, BBC"]
      else if cr > 0.8 then
        ["Consider reading diverse perspectives from different political viewpoints",
         "Try mixing sources like Guardian (left), WSJ (right), and Reuters (center)"]
      else []
    if pb.left = pb.center ∧ pb.center = pb.right ∧ total < 3 then
      base ++ ["Try reading from at least 3-5 different sources for better coverage"]
    else base

/-- Result record of `BiasDetector.detect_echo_chamber`; the three ratio
fields are the rounded entries of `political_distribution`. -/
structure EchoChamberResult where
  is_echo_chamber : Bool
  echo_chamber_type : String
  diversity_score : ℝ
  left_ratio : ℚ
  center_ratio : ℚ
  right_ratio : ℚ
  recommendations : List String

/-- `BiasDetector.detect_echo_chamber` (default `threshold = 0.3`). Both the
extreme-ratio test and the diversity-score test live inside the
`total_sources > 0` block of the source. -/
noncomputable def detectEchoChamber (t : SourceTable) (recentSources : List (List Char))
    (threshold : ℝ) : EchoChamberResult :=
  let da := analyzeSourceDiversity t recentSources
  let pb := da.political_balance
  let total := pb.left + pb.center + pb.right
  if 0 < total then
    let lr : ℚ := pb.left / total
    let rr : ℚ := pb.right / total
    let cr : ℚ := pb.center / total
    let flagged : Bool × String :=
      if lr > 0.7 then (true, "left-leaning")
      else if rr > 0.7 then (true, "right-leaning")
      else if cr > 0.9 then (false, "center-focused")
      else (false, "balanced")
    let isEcho : Bool := if da.diversity_score < threshold then true else flagged.1
    { is_echo_chamber := isEcho
      echo_chamber_type := flagged.2
      diversity_score := da.diversity_score
      left_ratio := pyRound3 lr
      center_ratio := pyRound3 cr
      right_ratio := pyRound3 rr
      recommendations := balanceRecommendations pb total }
  else
    { is_echo_chamber := false
      echo_chamber_type := "balanced"
      diversity_score := da.diversity_score
      left_ratio := 0
      center_ratio := 0
      right_ratio := 0
      recommendations := balanceRecommendations pb total }

/-! ## `InsightsGenerator._calculate_consumption_health_score` -/

/-- Result record of `_calculate_consumption_health_score`. -/
structure HealthScoreResult where
  overall_score : ℝ
  interpretation : String
  message : String
  factor_scores : List (String × ℝ)
  improvement_priority : String

/-- Python `max(items, key=f)` for a real-valued key: the first item
attaining the maximum (later items win only strictly). -/
noncomputable def maxByKeyR (f : String × ℝ → ℝ) : List (String × ℝ) → String × ℝ
  | [] => ("", 0)
  | x :: xs => xs.foldl (fun acc y => if f acc < f y then y else acc) x

/-- `InsightsGenerator._calculate_consumption_health_score`. Inputs are the
values the source reads out of the `stats` and `bias_summary` dicts:
`total_activities`, `daily_activity`, the number of topic keys, the
diversity score (`.get` default 0.0), the average credibility (`.get`
default 0.5) and the echo-chamber flag (`.get` default False). -/
noncomputable def calculateConsumptionHealthScore (totalActivities : ℕ)
    (dailyActivity : List (List Char × ℕ)) (topicsCovered : ℕ)
    (diversityScore : ℝ) (avgCredibility : ℝ) (isEchoChamber : Bool) : HealthScoreResult :=
  let days := dailyActivity.length
  let dailyAvg : ℝ := (totalActivities : ℝ) / (max days 1 : ℕ)
  let activityLevel : ℝ :=
    if 0.5 ≤ dailyAvg ∧ dailyAvg ≤ 3 then 1
    else if dailyAvg < 0.5 then dailyAvg / 0.5
    else max 0.1 (3 / dailyAvg)
  let topicCoverage : ℝ := min 1 ((topicsCovered : ℝ) / 7)
  let echoFactor : ℝ := if isEchoChamber then 0 else 1
  let healthScore : ℝ :=
    activityLevel * 0.2 + diversityScore * 0.3 + topicCoverage * 0.2 +
      echoFactor * 0.15 + avgCredibility * 0.15
  let interpretation : String × String :=
    if 0.8 ≤ healthScore then
      ("excellent", "Your news consumption habits are very healthy and well-balanced!")
    else if 0.6 ≤ healthScore then
      ("good", "Good news consumption habits with some room for improvement.")
    else if 0.4 ≤ healthScore then
      ("fair", "Your news habits could benefit from more balance and diversity.")
    else
      ("needs_improvement", "Consider improving your news consumption for better information balance.")
  let factorWeights : List (String × ℝ × ℝ) :=
    [ ("activity_level", activityLevel, 0.2),
      ("source_diversity", diversityScore, 0.3),
      ("topic_coverage", topicCoverage, 0.2),
      ("echo_chamber", echoFactor, 0.15),
      ("credibility", avgCredibility, 0.15) ]
  { overall_score := pyRound3R healthScore
    interpretation := interpretation.1
    message := interpretation.2
    factor_scores := factorWeights.map (fun fw => (fw.1, pyRound3R fw.2.1))
    improvement_priority :=
      (maxByKeyR (fun fv => fv.2) (factorWeights.map (fun fw => (fw.1, fw.2.2 * (1 - fw.2.1))))).1 }

/-- The four interpretation bands of the health score. -/
def healthBands : List String := ["excellent", "good", "fair", "needs_improvement"]

/-! ## `AnalyticsDatabase` state -/

/-- A row of the `consumption_log` table. Timestamps are modelled as
rationals (days since some epoch), totally ordered like SQLite DATETIME
strings. -/
structure ConsumptionRow where
  timestamp : ℚ
  action : List Char
  topic : Option (List Char)
  source : Option (List Char)
  keywords : Option (List Char)
  country : Option (List Char)
  language : Option (List Char)
  duration : ℤ
  result_count : ℤ
deriving DecidableEq

/-- A row of the `user_preferences` table. -/
structure PreferenceRow where
  preference_type : List Char
  preference_value : List Char
  weight : ℚ
deriving DecidableEq

/-- The four tables managed by `AnalyticsDatabase`. `analytics_settings`
has a TEXT PRIMARY KEY, modelled as an association list. -/
structure DBState where
  consumption_log : List ConsumptionRow
  source_analysis : SourceTable
  user_preferences : List PreferenceRow
  analytics_settings : List (List Char × List Char)
deriving DecidableEq

/-- `AnalyticsDatabase.get_setting`: the stored value, or the default. -/
def getSetting (db : DBState) (key dflt : List Char) : List Char :=
  match db.analytics_settings.lookup key with
  | some v => v
  | none => dflt

/-- `AnalyticsDatabase.is_tracking_enabled`:
`get_setting("tracking_enabled", "true").lower() == "true"`. -/
def isTrackingEnabled (db : DBState) : Bool :=
  lowerStr (getSetting db "tracking_enabled".toList "true".toList) == "true".toList

/-- Digits of a numeral to its value. -/
def digitsToNat (l : List Char) : ℕ :=
  l.foldl (fun a c => a * 10 + (c.toNat - 48)) 0

/-- Model of Python `int(s)` for strings: optional surrounding whitespace,
optional sign, then at least one digit; anything else raises (`none`). -/
def pyIntOfString (s : List Char) : Option ℤ :=
  match pyStrip s with
  | [] => none
  | c :: rest =>
    if c = '-' then
      if rest ≠ [] ∧ rest.all Char.isDigit then some (-(digitsToNat rest : ℤ)) else none
    else if c = '+' then
      if rest ≠ [] ∧ rest.all Char.isDigit then some (digitsToNat rest : ℤ) else none
    else if (c :: rest).all Char.isDigit then some (digitsToNat (c :: rest) : ℤ)
    else none

/-- `AnalyticsDatabase.get_data_retention_days`:
`int(get_setting("data_retention_days", "365"))`; `none` models the
`ValueError` on a malformed stored value. -/
def getDataRetentionDays (db : DBState) : Option ℤ :=
  pyIntOfString (getSetting db "data_retention_days".toList "365".toList)

/-- `AnalyticsDatabase.cleanup_old_data` at time `now` (in days):
computes `cutoff = now - retention_days`, deletes consumption rows with
`timestamp < cutoff`, and returns the new state with the deleted count. -/
def cleanupOldData (db : DBState) (now : ℚ) : Option (DBState × ℕ) :=
  match getDataRetentionDays db with
  | none => none
  | some retention =>
    let cutoff : ℚ := now - (retention : ℚ)
    let kept := db.consumption_log.filter (fun r => !decide (r.timestamp < cutoff))
    some ({ db with consumption_log := kept }, db.consumption_log.length - kept.length)

/-- `AnalyticsDatabase.clear_all_data`: delete every row of
`consumption_log`, `user_preferences` and `source_analysis`; the
`analytics_settings` table is not touched. -/
def clearAllData (db : DBState) : DBState :=
  { db with consumption_log := [], user_preferences := [], source_analysis := [] }

/-! ## The `get_consumption_stats` grouping queries -/

/-- The `WHERE timestamp >= start_date` filter. -/
def inPeriod (startDate : ℚ) (r : ConsumptionRow) : Bool :=
  decide (startDate ≤ r.timestamp)

/-- `SELECT key, COUNT(*) ... WHERE key IS NOT NULL GROUP BY key`: the
multiset of `(key, count)` pairs over the non-null keys of `rows` (listed
here in first-occurrence order; the SQL result order is constrained
separately). For the `action` column, which is NOT NULL, the extractor is
`fun r => some r.action`. -/
def groupCounts (rows : List ConsumptionRow) (key : ConsumptionRow → Option (List Char)) :
    List (List Char × ℕ) :=
  ((rows.filterMap key).dedup).map
    (fun k => (k, (rows.filter (fun r => key r == some k)).length))

/-- What `ORDER BY count DESC` guarantees about an output list: sorted by
descending count; ties may appear in any order. -/
def CountDescSorted (out : List (List Char × ℕ)) : Prop :=
  List.Pairwise (fun a b : List Char × ℕ => b.2 ≤ a.2) out

/-- Semantics of the grouping queries of `get_consumption_stats`: an
admissible result is any permutation of the group counts of the in-period
rows that is sorted by descending count. -/
def SqlGroupByCountDesc (rows : List ConsumptionRow) (startDate : ℚ)
    (key : ConsumptionRow → Option (List Char)) (out : List (List Char × ℕ)) : Prop :=
  out.Perm (groupCounts (rows.filter (inPeriod startDate)) key) ∧ CountDescSorted out

/-- The ordering claimed by the spec: count descending, ties broken by key
ascending (lexicographic on characters). -/
def SpecCountKeyOrdered (out : List (List Char × ℕ)) : Prop :=
  List.Pairwise
    (fun a b : List Char × ℕ => b.2 < a.2 ∨ (a.2 = b.2 ∧ List.Lex (fun c d : Char => c < d) a.1 b.1))
    out

/-! ## Spec-side definition for the diversity score (claim C5) -/

/-- Modelled from the spec: "sample standard deviation of the bias values
(0.0 if fewer than 2 sources)". -/
noncomputable def specSampleStdev (l : List ℝ) : ℝ :=
  if l.length < 2 then 0
  else Real.sqrt ((l.map (fun x => (x - l.sum / l.length) ^ 2)).sum / ((l.length : ℝ) - 1))

/-- Cast a list of rationals to reals. -/
def castListR (l : List ℚ) : List ℝ := l.map Rat.cast

/-! ## Helper lemmas -/

theorem castListR_sum (l : List ℚ) : ((l.sum : ℚ) : ℝ) = (castListR l).sum := by
  induction l with
  | nil => simp [castListR]
  | cons x xs ih =>
    simp only [castListR, List.map_cons, List.sum_cons] at ih ⊢
    rw [Rat.cast_add, ih]

theorem castListR_length (l : List ℚ) : (castListR l).length = l.length :=
  List.length_map _ _

theorem sampleVariance_cast (l : List ℚ) :
    ((sampleVariance l : ℚ) : ℝ) =
      ((castListR l).map (fun x => (x - (castListR l).sum / (castListR l).length) ^ 2)).sum /
        (((castListR l).length : ℝ) - 1) := by
  unfold sampleVariance meanQ
  rw [Rat.cast_div]
  congr 1
  · rw [castListR_sum (l.map _)]
    unfold castListR
    rw [List.map_map, List.map_map]
    have hpt : ∀ a ∈ l,
        (Rat.cast ∘ fun x : ℚ => (x - l.sum / (l.length : ℚ)) ^ 2) a =
          ((fun x : ℝ => (x - (l.map Rat.cast).sum / ((l.map (Rat.cast (K := ℝ))).length : ℝ)) ^ 2) ∘ Rat.cast) a := by
      intro a _
      simp only [Function.comp_apply]
      push_cast
      rw [List.length_map]
    rw [List.map_congr_left hpt]
  · rw [castListR_length]
    push_cast
    ring

theorem pyRound3R_zero : pyRound3R 0 = 0 := by
  unfold pyRound3R roundHalfEvenR
  norm_num

theorem roundHalfEvenR_nonneg (x : ℝ) (hx : 0 ≤ x) : 0 ≤ roundHalfEvenR x := by
  have hf : 0 ≤ ⌊x⌋ := Int.floor_nonneg.mpr hx
  unfold roundHalfEvenR
  split_ifs <;> omega

theorem roundHalfEvenR_le (x : ℝ) (m : ℤ) (hx : x ≤ m) : roundHalfEvenR x ≤ m := by
  have hf : ⌊x⌋ ≤ m := by
    have h := Int.floor_le_floor hx
    simpa using h
  have hstrict : ¬ x - ⌊x⌋ < 1/2 → ⌊x⌋ + 1 ≤ m := by
    intro h1
    rcases lt_or_eq_of_le hf with h | h
    · omega
    · exfalso
      have hcast : (⌊x⌋ : ℝ) = m := by exact_mod_cast congrArg Int.cast h
      have hxm : x ≤ (⌊x⌋ : ℝ) := by rw [hcast]; exact hx
      have hfr : 0 ≤ x - ⌊x⌋ := by
        have := Int.floor_le x
        linarith
      exact h1 (by linarith)
  unfold roundHalfEvenR
  split_ifs with h1 h2 h3
  · exact hf
  · exact hstrict h1
  · exact hf
  · exact hstrict h1

theorem pyRound3R_bounds (x : ℝ) (h0 : 0 ≤ x) (h1 : x ≤ 1) :
    0 ≤ pyRound3R x ∧ pyRound3R x ≤ 1 := by
  have hy0 : 0 ≤ x * 1000 := by positivity
  have hy1 : x * 1000 ≤ (1000 : ℤ) := by push_cast; nlinarith
  have hr0 : 0 ≤ roundHalfEvenR (x * 1000) := roundHalfEvenR_nonneg _ hy0
  have hr1 : roundHalfEvenR (x * 1000) ≤ 1000 := roundHalfEvenR_le _ 1000 hy1
  unfold pyRound3R
  constructor
  · positivity
  · rw [div_le_one (by norm_num)]
    exact_mod_cast hr1

theorem roundHalfEvenR_eq_add_one (x : ℝ) (n : ℤ) (hlo : (n : ℝ) + 1/2 < x)
    (hhi : x < n + 1) : roundHalfEvenR x = n + 1 := by
  have hfl : ⌊x⌋ = n := by
    rw [Int.floor_eq_iff]
    constructor <;> [linarith; exact_mod_cast hhi]
  unfold roundHalfEvenR
  rw [hfl]
  have hgt : 1/2 < x - n := by linarith
  rw [if_neg (by linarith), if_pos hgt]

theorem char_toNat_ofNat (n : ℕ) (h : n < 55296) : (Char.ofNat n).toNat = n := by
  unfold Char.ofNat
  split
  · rfl
  · rename_i hv
    exact absurd (Or.inl (by omega)) hv

theorem pyLowerChar_not_upper (c : Char) :
    ¬ (65 ≤ (pyLowerChar c).toNat ∧ (pyLowerChar c).toNat ≤ 90) := by
  unfold pyLowerChar
  by_cases h : 65 ≤ c.toNat ∧ c.toNat ≤ 90
  · rw [if_pos h, char_toNat_ofNat _ (by omega)]
    omega
  · rw [if_neg h]
    exact h

theorem pyLowerChar_fixed (c : Char) (h : ¬ (65 ≤ c.toNat ∧ c.toNat ≤ 90)) :
    pyLowerChar c = c := by
  unfold pyLowerChar
  exact if_neg h

theorem pyLowerChar_idem (c : Char) : pyLowerChar (pyLowerChar c) = pyLowerChar c :=
  pyLowerChar_fixed _ (pyLowerChar_not_upper c)

/-- A string all of whose characters are fixed by lowercasing. -/
def IsLowerL (l : List Char) : Prop := ∀ c ∈ l, pyLowerChar c = c

theorem lowerStr_eq_self (l : List Char) (h : IsLowerL l) : lowerStr l = l := by
  unfold lowerStr
  rw [List.map_congr_left h]
  simp

theorem isLower_lowerStr (l : List Char) : IsLowerL (lowerStr l) := by
  intro c hc
  obtain ⟨a, _, rfl⟩ := List.mem_map.mp hc
  exact pyLowerChar_idem a

theorem mem_pyStrip (c : Char) (l : List Char) (h : c ∈ pyStrip l) : c ∈ l := by
  unfold pyStrip at h
  rw [List.mem_reverse] at h
  have h1 : c ∈ (l.dropWhile Char.isWhitespace).reverse :=
    (List.dropWhile_sublist _).subset h
  rw [List.mem_reverse] at h1
  exact (List.dropWhile_sublist _).subset h1

theorem mem_stripOneSuffix (c : Char) (l : List Char) (h : c ∈ stripOneSuffix l) : c ∈ l := by
  unfold stripOneSuffix at h
  cases hf : suffixesList.find? (fun suf => suf.isSuffixOf l) with
  | none => rw [hf] at h; exact h
  | some suf =>
    rw [hf] at h
    exact List.take_subset _ _ h

theorem mem_of_lookup_eq_some {α β : Type} [BEq α] [LawfulBEq α] (l : List (α × β)) (k : α)
    (v : β) (h : l.lookup k = some v) : (k, v) ∈ l := by
  induction l with
  | nil => simp [List.lookup] at h
  | cons a t ih =>
    rw [List.lookup_cons] at h
    by_cases hk : k == a.1
    · simp only [hk, if_pos] at h
      have hk2 : k = a.1 := by simpa using hk
      cases a
      simp_all
    · simp only [hk, Bool.false_eq_true, if_neg] at h
      exact List.mem_cons_of_mem _ (ih h)

theorem isLower_applyVariations (l : List Char) (h : IsLowerL l) :
    IsLowerL (applyVariations l) := by
  unfold applyVariations
  cases hl : variationsList.lookup l with
  | none => simpa using h
  | some v =>
    have hmem : (l, v) ∈ variationsList := mem_of_lookup_eq_some _ _ _ hl
    have hvals : ∀ kv ∈ variationsList, ∀ c ∈ kv.2, pyLowerChar c = c := by decide
    intro c hc
    simp only [Option.getD_some] at hc
    exact hvals (l, v) hmem c hc

theorem cleanSourceName_isLower (s : List Char) : IsLowerL (cleanSourceName s) := by
  unfold cleanSourceName
  by_cases h : s.isEmpty
  · rw [if_pos h]
    intro c hc
    simp at hc
  · rw [if_neg h]
    apply isLower_applyVariations
    intro c hc
    exact isLower_lowerStr s c (mem_pyStrip _ _ (mem_stripOneSuffix _ _ hc))

theorem applyVariations_fixed (z : List Char) (h : variationsList.lookup z = none) :
    applyVariations z = z := by
  unfold applyVariations
  rw [h]
  rfl

theorem applyVariations_not_key (w : List Char) :
    variationsList.lookup (applyVariations w) = none := by
  unfold applyVariations
  cases hl : variationsList.lookup w with
  | none => simpa using hl
  | some v =>
    have hmem : (w, v) ∈ variationsList := mem_of_lookup_eq_some _ _ _ hl
    have hvals : ∀ kv ∈ variationsList, variationsList.lookup kv.2 = none := by decide
    simpa using hvals (w, v) hmem

theorem stripOneSuffix_eq_self (y : List Char)
    (h : ∀ suf ∈ suffixesList, suf.isSuffixOf y = false) : stripOneSuffix y = y := by
  unfold stripOneSuffix
  have hnone : suffixesList.find? (fun suf => suf.isSuffixOf y) = none := by
    rw [List.find?_eq_none]
    intro x hx
    simp [h x hx]
  rw [hnone]

/-! ## Claims about source-name normalization -/

/-- Counterexample to claim C3 as stated: normalization strips at most one
domain suffix per call, so it is not idempotent on `"a.com.com"`. -/
theorem claim_C3_counterexample :
    ¬ cleanSourceName (cleanSourceName "a.com.com".toList) =
        cleanSourceName "a.com.com".toList := by
  decide

/-- Claim C3 (amended): normalization is idempotent on every string whose
normalized form ends in none of the five domain suffixes and carries no
surrounding whitespace; it is not idempotent in general because exactly one
suffix is stripped per call (and a stripped suffix can expose whitespace). -/
theorem claim_C3_amended (s : List Char)
    (hsuf : ∀ suf ∈ suffixesList, suf.isSuffixOf (cleanSourceName s) = false)
    (hstrip : pyStrip (cleanSourceName s) = cleanSourceName s) :
    cleanSourceName (cleanSourceName s) = cleanSourceName s := by
  have hne : ∀ y : List Char, ¬ y.isEmpty = true →
      cleanSourceName y = applyVariations (stripOneSuffix (pyStrip (lowerStr y))) := by
    intro y hy
    unfold cleanSourceName
    rw [if_neg hy]
  by_cases hemp : (cleanSourceName s).isEmpty
  · rw [List.isEmpty_iff] at hemp
    rw [hemp]
    rfl
  · by_cases hs : s.isEmpty
    · exfalso
      apply hemp
      unfold cleanSourceName
      rw [if_pos hs]
      rfl
    · have hyw : cleanSourceName s =
          applyVariations (stripOneSuffix (pyStrip (lowerStr s))) := hne s hs
      rw [hne _ hemp,
        lowerStr_eq_self _ (cleanSourceName_isLower s),
        hstrip,
        stripOneSuffix_eq_self _ hsuf,
        hyw,
        applyVariations_fixed _ (applyVariations_not_key _)]

/-- Witness for the amended C3 at the concrete input `"The-Guardian.com"`,
whose normal form `"guardian"` satisfies both side conditions. -/
theorem claim_C3_witness :
    (∀ suf ∈ suffixesList, suf.isSuffixOf (cleanSourceName "The-Guardian.com".toList) = false) ∧
    pyStrip (cleanSourceName "The-Guardian.com".toList) = cleanSourceName "The-Guardian.com".toList ∧
    cleanSourceName (cleanSourceName "The-Guardian.com".toList) =
      cleanSourceName "The-Guardian.com".toList :=
  ⟨by decide, by decide, claim_C3_amended _ (by decide) (by decide)⟩

/-! ## Claims about the database layer -/

/-- Claim C9: `clear_all_data` empties the consumption-event, preference
and source-analysis tables, leaves the settings table unchanged, and in
particular `is_tracking_enabled` and `get_data_retention_days` are
unaffected by a reset. -/
theorem claim_C9_clear_all_data_frame (db : DBState) :
    (clearAllData db).consumption_log = [] ∧
    (clearAllData db).user_preferences = [] ∧
    (clearAllData db).source_analysis = [] ∧
    (clearAllData db).analytics_settings = db.analytics_settings ∧
    isTrackingEnabled (clearAllData db) = isTrackingEnabled db ∧
    getDataRetentionDays (clearAllData db) = getDataRetentionDays db := by
  refine ⟨rfl, rfl, rfl, rfl, ?_, ?_⟩ <;>
    simp [isTrackingEnabled, getDataRetentionDays, getSetting, clearAllData]

/-- Claim C8: retention cleanup is idempotent; a second cleanup at the same
instant, with no intervening writes, deletes 0 rows and leaves the state
unchanged. -/
theorem claim_C8_cleanup_idempotent (db : DBState) (now : ℚ) (db1 : DBState) (n : ℕ)
    (h : cleanupOldData db now = some (db1, n)) :
    cleanupOldData db1 now = some (db1, 0) := by
  unfold cleanupOldData at h ⊢
  cases hr : getDataRetentionDays db with
  | none => rw [hr] at h; exact absurd h (by simp)
  | some r =>
    rw [hr] at h
    simp only [Option.some.injEq, Prod.mk.injEq] at h
    obtain ⟨hdb1, hn⟩ := h
    have hsettings : db1.analytics_settings = db.analytics_settings := by
      rw [← hdb1]
    have hr1 : getDataRetentionDays db1 = some r := by
      unfold getDataRetentionDays getSetting
      rw [hsettings]
      unfold getDataRetentionDays getSetting at hr
      exact hr
    rw [hr1]
    have hlog : db1.consumption_log =
        db.consumption_log.filter (fun x => !decide (x.timestamp < now - (r : ℚ))) := by
      rw [← hdb1]
    simp only [Option.some.injEq, Prod.mk.injEq]
    rw [hlog, List.filter_filter]
    constructor
    · cases hdb1
      simp [List.filter_filter]
    · simp

/-- Claim C4: `get_source_bias` is total, never changes the source-analysis
table, and falls back to the neutral pair `(0.0, 0.5)` exactly when the
cleaned source name is not cached. -/
theorem claim_C4_get_source_bias_total_frame (t : SourceTable) (s : List Char) :
    (getSourceBias t s).2 = t ∧
    (lookupSource t (cleanSourceName s) = none → (getSourceBias t s).1 = (0, 0.5)) := by
  unfold getSourceBias
  cases h : lookupSource t (cleanSourceName s) <;> simp [h]

/-- Witness for C4 at a concrete unknown source: the cleaned name
`example-news` is not in the initialized table, so the call returns the
neutral scores and leaves the table unchanged. -/
theorem claim_C4_witness :
    lookupSource initializedTable (cleanSourceName "Example-News.com".toList) = none ∧
    (getSourceBias initializedTable "Example-News.com".toList).1 = (0, 0.5) ∧
    (getSourceBias initializedTable "Example-News.com".toList).2 = initializedTable :=
  ⟨by decide,
   (claim_C4_get_source_bias_total_frame initializedTable "Example-News.com".toList).2 (by decide),
   (claim_C4_get_source_bias_total_frame initializedTable "Example-News.com".toList).1⟩

/-- Concrete consumption row used by witnesses and counterexamples. -/
def mkRow (ts : ℚ) (action : List Char) : ConsumptionRow :=
  { timestamp := ts, action := action, topic := none, source := none,
    keywords := none, country := none, language := none, duration := 0, result_count := 0 }

/-- A one-row database state with default (empty) settings. -/
def exampleOldDB : DBState := ⟨[mkRow 0 "search".toList], [], [], []⟩

/-- The empty database state. -/
def exampleEmptyDB : DBState := ⟨[], [], [], []⟩

/-- Witness for C8: a log with one row older than the default 365-day
retention window; the first cleanup deletes it, the second deletes nothing. -/
theorem claim_C8_witness :
    cleanupOldData exampleOldDB 400 = some (exampleEmptyDB, 1) ∧
    cleanupOldData exampleEmptyDB 400 = some (exampleEmptyDB, 0) := by
  have h1 : cleanupOldData exampleOldDB 400 = some (exampleEmptyDB, 1) := by
    have hret : getDataRetentionDays exampleOldDB = some 365 := by decide
    unfold cleanupOldData
    rw [hret]
    have hts : ((0 : ℚ) < 400 - ((365 : ℤ) : ℚ)) := by norm_num
    have h365 : ((365 : ℚ) < 400) := by norm_num
    simp [exampleOldDB, exampleEmptyDB, mkRow, List.filter, hts, h365]
  exact ⟨h1, claim_C8_cleanup_idempotent _ 400 _ 1 h1⟩

/-- One step of the political-balance loop adds exactly one to the three
counters. -/
theorem foldl_classify_sum (l : List ℚ) (pb : PoliticalBalance) :
    (l.foldl classifyBias pb).left + (l.foldl classifyBias pb).center +
        (l.foldl classifyBias pb).right =
      pb.left + pb.center + pb.right + l.length := by
  induction l generalizing pb with
  | nil => simp
  | cons x xs ih =>
    rw [List.foldl_cons, ih]
    unfold classifyBias
    split_ifs <;> simp <;> omega

/-- Claim C6: for non-empty source lists, the diversity score lies in
[0, 1] and the three political-balance counters sum to the number of
sources (duplicates included). -/
theorem claim_C6_diversity_bounds_balance_sum (t : SourceTable) (sources : List (List Char))
    (h : sources ≠ []) :
    0 ≤ (analyzeSourceDiversity t sources).diversity_score ∧
    (analyzeSourceDiversity t sources).diversity_score ≤ 1 ∧
    (analyzeSourceDiversity t sources).political_balance.left +
        (analyzeSourceDiversity t sources).political_balance.center +
        (analyzeSourceDiversity t sources).political_balance.right = sources.length := by
  have hne : sources.isEmpty = false := by
    cases sources with
    | nil => exact absurd rfl h
    | cons a l => rfl
  unfold analyzeSourceDiversity
  rw [hne]
  simp only [Bool.false_eq_true, if_false]
  have h0 : (0 : ℝ) ≤ stdevOf t sources := by
    unfold stdevOf
    split_ifs
    · exact Real.sqrt_nonneg _
    · exact le_refl 0
  have hmin0 : (0 : ℝ) ≤ min (stdevOf t sources / 1) 1 := by
    rw [div_one]
    exact le_min h0 zero_le_one
  have hmin1 : min (stdevOf t sources / 1) 1 ≤ 1 := min_le_right _ _
  obtain ⟨hb0, hb1⟩ := pyRound3R_bounds _ hmin0 hmin1
  refine ⟨hb0, hb1, ?_⟩
  unfold balanceOf
  rw [foldl_classify_sum]
  simp [biasScoresOf]

/-- Witness for C6 at the singleton list `["reuters"]` over the
initialized table. -/
theorem claim_C6_witness :
    (["reuters".toList] ≠ ([] : List (List Char))) ∧
    (0 ≤ (analyzeSourceDiversity initializedTable ["reuters".toList]).diversity_score ∧
     (analyzeSourceDiversity initializedTable ["reuters".toList]).diversity_score ≤ 1 ∧
     (analyzeSourceDiversity initializedTable ["reuters".toList]).political_balance.left +
         (analyzeSourceDiversity initializedTable ["reuters".toList]).political_balance.center +
         (analyzeSourceDiversity initializedTable ["reuters".toList]).political_balance.right =
       ["reuters".toList].length) :=
  ⟨by decide, claim_C6_diversity_bounds_balance_sum initializedTable ["reuters".toList] (by decide)⟩

/-- Counterexample to claim C2 as stated: with two actions of equal count,
the SQL (`ORDER BY count DESC`, no secondary key) admits the output
`[("b", 1), ("a", 1)]`, which is not ordered by key ascending among ties. -/
theorem claim_C2_counterexample :
    SqlGroupByCountDesc [mkRow 1 "a".toList, mkRow 1 "b".toList] 0
        (fun r => some r.action) [("b".toList, 1), ("a".toList, 1)] ∧
    ¬ SpecCountKeyOrdered [("b".toList, 1), ("a".toList, 1)] := by
  refine ⟨⟨?_, ?_⟩, ?_⟩
  · decide
  · unfold CountDescSorted
    decide
  · unfold SpecCountKeyOrdered
    decide

/-- Claim C2 (amended): every output admissible for the grouping queries of
`get_consumption_stats` contains only keys that occur non-null on some
in-period row, and is ordered by count descending; the order among
equal-count keys is not constrained (the SQL has no tie-break key). -/
theorem claim_C2_amended (rows : List ConsumptionRow) (startDate : ℚ)
    (key : ConsumptionRow → Option (List Char)) (out : List (List Char × ℕ))
    (h : SqlGroupByCountDesc rows startDate key out) :
    (∀ p ∈ out, ∃ r ∈ rows, inPeriod startDate r = true ∧ key r = some p.1) ∧
    CountDescSorted out := by
  obtain ⟨hperm, hsort⟩ := h
  refine ⟨?_, hsort⟩
  intro p hp
  have hp2 : p ∈ groupCounts (rows.filter (inPeriod startDate)) key := hperm.subset hp
  unfold groupCounts at hp2
  obtain ⟨k, hk, hkp⟩ := List.mem_map.mp hp2
  rw [List.mem_dedup] at hk
  obtain ⟨r, hr, hkey⟩ := List.mem_filterMap.mp hk
  obtain ⟨hrmem, hrper⟩ := List.mem_filter.mp hr
  refine ⟨r, hrmem, hrper, ?_⟩
  rw [hkey, ← hkp]

/-- Witness for the amended C2 at a one-row log whose unique admissible
output is `[("a", 1)]`. -/
theorem claim_C2_witness :
    SqlGroupByCountDesc [mkRow 1 "a".toList] 0 (fun r => some r.action) [("a".toList, 1)] ∧
    ((∀ p ∈ [("a".toList, 1)], ∃ r ∈ [mkRow 1 "a".toList],
        inPeriod 0 r = true ∧ (fun r : ConsumptionRow => some r.action) r = some p.1) ∧
     CountDescSorted [("a".toList, 1)]) := by
  have hsql : SqlGroupByCountDesc [mkRow 1 "a".toList] 0
      (fun r => some r.action) [("a".toList, 1)] := by
    refine ⟨by decide, ?_⟩
    unfold CountDescSorted
    decide
  exact ⟨hsql, claim_C2_amended _ _ _ _ hsql⟩

/-- Claim C10: on an empty source list, `detect_echo_chamber` (default
threshold 0.3) reports no echo chamber, type "balanced" and zero ratios,
even though its diversity score 0.0 lies below the threshold: the
diversity test only runs when `total_sources > 0`. -/
theorem claim_C10_detect_echo_chamber_empty (t : SourceTable) :
    (detectEchoChamber t [] 0.3).is_echo_chamber = false ∧
    (detectEchoChamber t [] 0.3).echo_chamber_type = "balanced" ∧
    (detectEchoChamber t [] 0.3).left_ratio = 0 ∧
    (detectEchoChamber t [] 0.3).center_ratio = 0 ∧
    (detectEchoChamber t [] 0.3).right_ratio = 0 ∧
    (detectEchoChamber t [] 0.3).diversity_score = 0 ∧
    (detectEchoChamber t [] 0.3).diversity_score < 0.3 := by
  have hda : analyzeSourceDiversity t [] =
      { diversity_score := 0
        political_balance := ⟨0, 0, 0⟩
        average_credibility := 0
        average_bias := none
        source_count := 0
        bias_min := none
        bias_max := none
        bias_std_dev := none } := by
    unfold analyzeSourceDiversity
    simp
  unfold detectEchoChamber
  rw [hda]
  norm_num

/-- The source-side standard deviation agrees with the spec-side sample
standard deviation of the cast bias values. -/
theorem stdevOf_eq_specSampleStdev (t : SourceTable) (sources : List (List Char)) :
    stdevOf t sources = specSampleStdev (castListR (biasScoresOf t sources)) := by
  unfold stdevOf specSampleStdev
  by_cases h : 1 < (biasScoresOf t sources).length
  · rw [if_pos h, if_neg (by rw [castListR_length]; omega)]
    rw [sampleVariance_cast]
  · rw [if_neg h, if_pos (by rw [castListR_length]; omega)]

/-- Claim C5: for every source list, `diversity_score` equals the sample
standard deviation of the resolved bias values (0.0 below two elements),
clamped to [0, 1] and rounded to 3 decimals; and concretely
`analyze_source_diversity(["reuters", "ap"])` yields diversity 0.0 with
political balance (left 0, center 2, right 0). -/
theorem claim_C5_diversity_is_sample_stdev :
    (∀ (t : SourceTable) (sources : List (List Char)),
      (analyzeSourceDiversity t sources).diversity_score =
        pyRound3R (min (specSampleStdev (castListR (biasScoresOf t sources))) 1)) ∧
    (analyzeSourceDiversity initializedTable ["reuters".toList, "ap".toList]).diversity_score = 0 ∧
    (analyzeSourceDiversity initializedTable ["reuters".toList, "ap".toList]).political_balance =
      ⟨0, 2, 0⟩ := by
  have huniv : ∀ (t : SourceTable) (sources : List (List Char)),
      (analyzeSourceDiversity t sources).diversity_score =
        pyRound3R (min (specSampleStdev (castListR (biasScoresOf t sources))) 1) := by
    intro t sources
    unfold analyzeSourceDiversity
    by_cases h : sources.isEmpty
    · have hnil : sources = [] := by
        cases sources with
        | nil => rfl
        | cons a l => simp at h
      subst hnil
      rw [if_pos h]
      have hspec : specSampleStdev (castListR (biasScoresOf t [])) = 0 := by
        unfold specSampleStdev biasScoresOf castListR
        simp
      rw [hspec, min_eq_left zero_le_one, pyRound3R_zero]
    · rw [if_neg h]
      rw [← stdevOf_eq_specSampleStdev, div_one]
  have hbias : biasScoresOf initializedTable ["reuters".toList, "ap".toList] = [0.0, 0.0] := by
    rfl
  refine ⟨huniv, ?_, ?_⟩
  · rw [huniv, ← stdevOf_eq_specSampleStdev]
    have hstd : stdevOf initializedTable ["reuters".toList, "ap".toList] = 0 := by
      unfold stdevOf
      rw [hbias]
      have hvar : sampleVariance [(0.0 : ℚ), 0.0] = 0 := by
        norm_num [sampleVariance, meanQ]
      rw [if_pos (by norm_num), hvar]
      norm_num [Real.sqrt_zero]
    rw [hstd, min_eq_left zero_le_one, pyRound3R_zero]
  · unfold analyzeSourceDiversity
    rw [if_neg (by decide)]
    show balanceOf initializedTable ["reuters".toList, "ap".toList] = ⟨0, 2, 0⟩
    unfold balanceOf
    rw [hbias]
    have hn1 : ¬ ((0.0 : ℚ) < -0.3) := by norm_num
    have hn2 : ¬ ((0.0 : ℚ) > 0.3) := by norm_num
    simp [classifyBias, hn1, hn2]

theorem roundHalfEvenR_intCast (n : ℤ) : roundHalfEvenR (n : ℝ) = n := by
  unfold roundHalfEvenR
  rw [Int.floor_intCast]
  norm_num

/-- Claim C7: on an empty consumption history (0 activities, no daily
activity, empty bias summary, hence diversity 0.0, credibility default 0.5,
no echo chamber), the health score is the weighted factor sum rounded to 3
decimals, lies in [0, 1], and its interpretation is one of the four fixed
bands (here "needs_improvement"). -/
theorem claim_C7_health_score_empty_history :
    (calculateConsumptionHealthScore 0 [] 0 0 0.5 false).overall_score =
      pyRound3R ((0 : ℝ) * 0.2 + 0 * 0.3 + 0 * 0.2 + 1 * 0.15 + 0.5 * 0.15) ∧
    (calculateConsumptionHealthScore 0 [] 0 0 0.5 false).overall_score = 0.225 ∧
    0 ≤ (calculateConsumptionHealthScore 0 [] 0 0 0.5 false).overall_score ∧
    (calculateConsumptionHealthScore 0 [] 0 0 0.5 false).overall_score ≤ 1 ∧
    (calculateConsumptionHealthScore 0 [] 0 0 0.5 false).interpretation = "needs_improvement" ∧
    (calculateConsumptionHealthScore 0 [] 0 0 0.5 false).interpretation ∈ healthBands := by
  have hval : pyRound3R ((0 : ℝ) * 0.2 + 0 * 0.3 + 0 * 0.2 + 1 * 0.15 + 0.5 * 0.15) = 0.225 := by
    have harg : ((0 : ℝ) * 0.2 + 0 * 0.3 + 0 * 0.2 + 1 * 0.15 + 0.5 * 0.15) = 0.225 := by
      norm_num
    rw [harg]
    unfold pyRound3R
    have h225 : (0.225 : ℝ) * 1000 = ((225 : ℤ) : ℝ) := by norm_num
    rw [h225, roundHalfEvenR_intCast]
    norm_num
  have hscore : (calculateConsumptionHealthScore 0 [] 0 0 0.5 false).overall_score =
      pyRound3R ((0 : ℝ) * 0.2 + 0 * 0.3 + 0 * 0.2 + 1 * 0.15 + 0.5 * 0.15) := by
    unfold calculateConsumptionHealthScore
    norm_num [min_def]
  have hinterp : (calculateConsumptionHealthScore 0 [] 0 0 0.5 false).interpretation =
      "needs_improvement" := by
    unfold calculateConsumptionHealthScore
    norm_num [min_def]
  refine ⟨hscore, ?_, ?_, ?_, hinterp, ?_⟩
  · rw [hscore, hval]
  · rw [hscore, hval]; norm_num
  · rw [hscore, hval]; norm_num
  · rw [hinterp]; simp [healthBands]

/-! ## Claim C1: the two echo-chamber scenarios -/

/-- The all-left scenario list of claim C1 (and of the repo's own test
`test_echo_chamber_detection`). -/
def leftSources : List (List Char) :=
  ["cnn".toList, "msnbc".toList, "huffpost".toList, "guardian".toList]

/-- The "balanced" scenario list of claim C1. -/
def balancedSources : List (List Char) :=
  ["cnn".toList, "reuters".toList, "wsj".toList, "bbc".toList]

/-- Claim C1 (evaluated on the code): the all-left list is flagged as a
left-leaning echo chamber, as claimed; but the "balanced" list
{cnn, reuters, wsj, bbc} is ALSO flagged (`is_echo_chamber = true`),
contradicting the claim and the repo's test: its diversity score is
`round(sqrt(1/12), 3) = 0.289`, which is below the default threshold 0.3. -/
theorem claim_C1_echo_chamber_examples :
    (detectEchoChamber initializedTable leftSources 0.3).is_echo_chamber = true ∧
    (detectEchoChamber initializedTable leftSources 0.3).echo_chamber_type = "left-leaning" ∧
    (detectEchoChamber initializedTable balancedSources 0.3).is_echo_chamber = true ∧
    (detectEchoChamber initializedTable balancedSources 0.3).echo_chamber_type = "balanced" ∧
    (detectEchoChamber initializedTable balancedSources 0.3).diversity_score = 289 / 1000 := by
  have hbalL : (analyzeSourceDiversity initializedTable leftSources).political_balance =
      ⟨4, 0, 0⟩ := by
    unfold analyzeSourceDiversity
    rw [if_neg (by decide)]
    show balanceOf initializedTable leftSources = ⟨4, 0, 0⟩
    unfold balanceOf
    rw [show biasScoresOf initializedTable leftSources = [-0.4, -0.7, -0.8, -0.6] from rfl]
    norm_num [classifyBias]
  have hbalB : (analyzeSourceDiversity initializedTable balancedSources).political_balance =
      ⟨1, 3, 0⟩ := by
    unfold analyzeSourceDiversity
    rw [if_neg (by decide)]
    show balanceOf initializedTable balancedSources = ⟨1, 3, 0⟩
    unfold balanceOf
    rw [show biasScoresOf initializedTable balancedSources = [-0.4, 0.0, 0.3, -0.1] from rfl]
    norm_num [classifyBias]
  have hvar : sampleVariance [(-0.4 : ℚ), 0.0, 0.3, -0.1] = 1/12 := by
    norm_num [sampleVariance, meanQ]
  have hstdB : stdevOf initializedTable balancedSources = Real.sqrt ((1 : ℝ)/12) := by
    unfold stdevOf
    rw [show biasScoresOf initializedTable balancedSources = [-0.4, 0.0, 0.3, -0.1] from rfl]
    rw [if_pos (by norm_num), hvar]
    have hc : ((1/12 : ℚ) : ℝ) = (1 : ℝ)/12 := by push_cast; ring
    rw [hc]
  have hsq1 : Real.sqrt ((1 : ℝ)/12) ≤ 1 := by
    rw [Real.sqrt_le_one]
    norm_num
  have hround : pyRound3R (Real.sqrt ((1 : ℝ)/12)) = 289 / 1000 := by
    unfold pyRound3R
    have h1 : ((288 : ℤ) : ℝ) + 1/2 < Real.sqrt ((1 : ℝ)/12) * 1000 := by
      have hlt : (0.2885 : ℝ) < Real.sqrt ((1 : ℝ)/12) := by
        apply Real.lt_sqrt_of_sq_lt
        norm_num
      push_cast
      nlinarith
    have h2 : Real.sqrt ((1 : ℝ)/12) * 1000 < ((288 : ℤ) : ℝ) + 1 := by
      have hlt : Real.sqrt ((1 : ℝ)/12) < 0.289 := by
        rw [Real.sqrt_lt' (by norm_num : (0 : ℝ) < 0.289)]
        norm_num
      push_cast
      nlinarith
    rw [roundHalfEvenR_eq_add_one _ 288 h1 h2]
    norm_num
  have hdsB : (analyzeSourceDiversity initializedTable balancedSources).diversity_score =
      289 / 1000 := by
    unfold analyzeSourceDiversity
    rw [if_neg (by decide)]
    show pyRound3R (min (stdevOf initializedTable balancedSources / 1) 1) = 289 / 1000
    rw [div_one, hstdB, min_eq_left hsq1, hround]
  refine ⟨?_, ?_, ?_, ?_, ?_⟩
  · simp only [detectEchoChamber]
    rw [hbalL]
    norm_num
  · simp only [detectEchoChamber]
    rw [hbalL]
    norm_num
  · simp only [detectEchoChamber]
    rw [hbalB, hdsB]
    norm_num
  · simp only [detectEchoChamber]
    rw [hbalB]
    norm_num
  · simp only [detectEchoChamber]
    rw [hbalB]
    norm_num [hdsB]
